import Mathlib

/-!
Verification of the CSV/Excel asynchronous job-processing pipeline.

This file embeds, as executable Lean definitions, the parts of the system
that the specification's testable properties speak about:

* the multi-value field normalizers of the two workers
  (`parseMultiValueField` in the CSV worker and in the Excel worker),
* the Excel header validation (`parseExcel`),
* the per-record worker loop with its counters, progress emissions and
  finalization (shared shape of `csvQueue.process` / `excelQueue.process`),
* upload classification and routing (`getQueueForFile`, the `/upload`
  handler and the multer file filter),
* the paginated job listing of `GET /jobs`.

JavaScript strings are modelled as `List Char`; dynamically typed cell
values as the inductive `JsValue`.  All definitions are computable, and the
theorems at the end of the file settle the stated properties.
-/

/-- Whitespace as recognised by JavaScript `String.prototype.trim`
(the characters relevant to this code base: ASCII blanks plus NBSP). -/
def isWs (c : Char) : Bool :=
  c = ' ' || c = '\t' || c = '\n' || c = '\r' ||
  c.val = 11 || c.val = 12 || c.val = 0xa0 || c.val = 0xfeff

/-- JavaScript `s.trim()`: strip leading and trailing whitespace. -/
def jsTrim (s : List Char) : List Char :=
  ((s.dropWhile isWs).reverse.dropWhile isWs).reverse

/-- JavaScript `s.split(/[,|]/)`: split on every comma or pipe; the empty
string yields `[""]`, and empty segments between delimiters are kept. -/
def splitCP : List Char → List (List Char)
  | [] => [[]]
  | c :: rest =>
    let r := splitCP rest
    if c = ',' || c = '|' then [] :: r
    else
      match r with
      | h :: t => (c :: h) :: t
      | [] => [[c]]

/-- A single or double quote character (the class `["']` of the regex). -/
def isQuote (c : Char) : Bool :=
  c = '"' || c = Char.ofNat 39

/-- A character matched by `.` in a JavaScript regex (anything except the
line terminators). -/
def regexDot (c : Char) : Bool :=
  c ≠ '\n' && c ≠ '\r' && c.val ≠ 0x2028 && c.val ≠ 0x2029

/-- JavaScript `s.replace(/^["'](.+)["']$/, "$1")`: if the whole string is
a quote character, at least one line-terminator-free character, and a quote
character, the wrapping pair is stripped; otherwise the string is
unchanged. -/
def stripOuterQuotes (s : List Char) : List Char :=
  match s with
  | [] => []
  | first :: rest =>
    match rest.getLast? with
    | none => s
    | some lastc =>
      let mid := rest.dropLast
      if isQuote first && isQuote lastc && !mid.isEmpty && mid.all regexDot
      then mid
      else first :: rest

/-- A scalar spreadsheet cell payload: text or a number. -/
inductive JsScalar where
  | sStr : List Char → JsScalar
  | sNum : Int → JsScalar
deriving DecidableEq, Repr

/-- A dynamically typed JavaScript value as it reaches the normalizers:
a string, a number, an array of scalars (a pre-split cell), or
`null`/`undefined`. -/
inductive JsValue where
  | vStr : List Char → JsValue
  | vNum : Int → JsValue
  | vArr : List JsScalar → JsValue
  | vNull : JsValue
deriving DecidableEq, Repr

/-- JavaScript truthiness of a `JsValue` (`!value` is its negation):
the empty string, the number 0 and `null`/`undefined` are falsy; every
array is truthy. -/
def truthy : JsValue → Bool
  | .vStr s => !s.isEmpty
  | .vNum n => !(n == 0)
  | .vArr _ => true
  | .vNull => false

/-- JavaScript `v.toString()` for a scalar. -/
def scalarToString : JsScalar → List Char
  | .sStr s => s
  | .sNum n => (toString n).data

/-- JavaScript `value.toString()` for a `JsValue` (arrays join their elements with
commas; the `null` case is unreachable behind the truthiness guard). -/
def jsValueToString : JsValue → List Char
  | .vStr s => s
  | .vNum n => (toString n).data
  | .vArr elems => List.intercalate ",".data (elems.map scalarToString)
  | .vNull => "null".data

namespace CsvWorker

/-- The function `parseMultiValueField` of the CSV worker: falsy values and non-string
values map to `[]`; a non-empty string is stripped of one pair of wrapping
quotes, split on comma or pipe, each token trimmed and empty tokens
dropped. -/
def parseMultiValueField (value : JsValue) : List (List Char) :=
  if !truthy value then []
  else
    match value with
    | .vStr s =>
      let cleaned := stripOuterQuotes s
      ((splitCP cleaned).map jsTrim).filter (fun t => !t.isEmpty)
    | _ => []

end CsvWorker

namespace ExcelWorker

/-- The function `parseMultiValueField` of the Excel worker: falsy values map to `[]`;
an array maps each element to its trimmed string form, dropping empties;
any other value is stringified, stripped of one pair of wrapping quotes,
split on comma or pipe, each token trimmed and empty tokens dropped. -/
def parseMultiValueField (value : JsValue) : List (List Char) :=
  if !truthy value then []
  else
    match value with
    | .vArr elems =>
      (elems.map (fun v => jsTrim (scalarToString v))).filter
        (fun t => !t.isEmpty)
    | _ =>
      let stringValue := jsValueToString value
      let cleanValue := stripOuterQuotes stringValue
      ((splitCP cleanValue).map jsTrim).filter (fun t => !t.isEmpty)

end ExcelWorker

/-- A parsed record: an ordered field-name-to-value mapping. -/
def Rec : Type := List (List Char × JsValue)

instance : DecidableEq Rec := inferInstanceAs (DecidableEq (List _))

/-- The outcome of invoking the Record Processor on one record: a
transformed record, or a thrown `RecordProcessingError`. -/
inductive Outcome where
  | success : Rec → Outcome
  | failure : Outcome
deriving DecidableEq

/-- Statistics accumulated for one multi-value field
(`results.summary.multiValueFields[field]`). -/
structure MVStat where
  totalValues : Nat
  uniqueValues : List (List Char)
  maxValuesInField : Nat
deriving DecidableEq

/-- JS `Set.add`: insert preserving insertion order, skipping members. -/
def addToSet (set : List (List Char)) (v : List Char) : List (List Char) :=
  if set.contains v then set else set ++ [v]

/-- Fold one record's array of values into a field's statistics. -/
def updateStat (st : MVStat) (values : List (List Char)) : MVStat :=
  { totalValues := st.totalValues + values.length,
    uniqueValues := values.foldl addToSet st.uniqueValues,
    maxValuesInField := max st.maxValuesInField values.length }

/-- The values of an array cell, if the cell is an array. -/
def arrayValues : JsValue → Option (List (List Char))
  | .vArr elems => some (elems.map scalarToString)
  | _ => none

/-- Update the per-field summary with every array-valued field of a
processed record. -/
def updateSummary (summary : List (List Char × MVStat))
    (data : Rec) : List (List Char × MVStat) :=
  data.foldl
    (fun acc kv =>
      match arrayValues kv.2 with
      | none => acc
      | some values =>
        match acc.lookup kv.1 with
        | none => acc ++ [(kv.1, updateStat ⟨0, [], 0⟩ values)]
        | some st =>
          acc.map (fun e => if e.1 = kv.1 then (e.1, updateStat st values) else e))
    summary

/-- The `results` accumulator of a worker run. -/
structure Results where
  processed : Nat
  failed : Nat
  total : Nat
  records : List Rec
  summary : List (List Char × MVStat)
deriving DecidableEq

/-- The `results` object as initialised at the top of the queue processor. -/
def initResults : Results := ⟨0, 0, 0, [], []⟩

/-- Externally observable events of a worker run: a progress emission
(`job.progress(p)`), an error log line, the source-file deletion
(`fs.unlinkSync`), and the terminal transition. -/
inductive Ev where
  | progressEv : Nat → Ev
  | errorLog : Ev
  | fileDelete : Ev
  | completeEv : Ev
  | failEv : Ev
deriving DecidableEq

/-- One iteration of the record loop: a success increments `processed`,
pushes the outcome and folds it into the summary; a failure increments
`failed` only. -/
def recordStep (res : Results) (o : Outcome) : Results :=
  match o with
  | .success data =>
    { res with
      processed := res.processed + 1,
      records := res.records ++ [data],
      summary := updateSummary res.summary data }
  | .failure => { res with failed := res.failed + 1 }

/-- Events of one iteration: a failure is logged, then (in either case)
the recomputed progress `⌊(processed + failed) / total * 100⌋` is
emitted. -/
def eventsFor (o : Outcome) (p : Nat) : List Ev :=
  match o with
  | .success _ => [Ev.progressEv p]
  | .failure => [Ev.errorLog, Ev.progressEv p]

/-- The record loop of `csvQueue.process` / `excelQueue.process`, run over
the per-record outcomes, returning the final accumulator and the events in
order. -/
def runRecords (total : Nat) (res : Results) : List Outcome → Results × List Ev
  | [] => (res, [])
  | o :: os =>
    let res' := recordStep res o
    let rest := runRecords total res' os
    (rest.1, eventsFor o ((res'.processed + res'.failed) * 100 / total) ++ rest.2)

/-- The terminal disposition of a job. -/
inductive Final where
  | completed : Final
  | failedWith : List Char → Final
deriving DecidableEq

/-- A full worker run. -/
structure WorkerRun where
  res : Results
  events : List Ev
  final : Final
deriving DecidableEq

/-- The body of the queue processor: on a parse failure the error
propagates and the job fails with the counters untouched; otherwise
`total` is set to the record count, the loop runs, the file is deleted and
the job completes with the accumulated `results`. -/
def runWorker (parsed : Except (List Char) (List Outcome)) : WorkerRun :=
  match parsed with
  | .error e => { res := initResults, events := [Ev.failEv], final := .failedWith e }
  | .ok os =>
    let r0 := { initResults with total := os.length }
    let run := runRecords os.length r0 os
    { res := run.1,
      events := run.2 ++ [Ev.fileDelete, Ev.completeEv],
      final := .completed }

/-- The progress values emitted by a run, in order. -/
def progressOf (evs : List Ev) : List Nat :=
  evs.filterMap (fun e => match e with | .progressEv p => some p | _ => none)

/-- Job states of the queue. -/
inductive JState where
  | waiting | active | completed | failed | delayed
deriving DecidableEq

/-- A job as stored in the queue and served by the query layer. -/
structure Job where
  id : Nat
  filePath : List Char
  originalName : List Char
  state : JState
  progress : Nat
  result : Option Results
  createdAt : Nat
  startedAt : Option Nat
  finishedAt : Option Nat
deriving DecidableEq

/-- The last progress written by a run, or the job's previous progress if
the run wrote none. -/
def lastProgress (evs : List Ev) (dflt : Nat) : Nat :=
  ((progressOf evs).getLast?).getD dflt

/-- Effect of a worker run on the claimed job and on the file store: on
completion the result is recorded, the job transitions to `completed` and
the source file is removed; on failure the job transitions to `failed`
and the file store is untouched. -/
def applyWorker (parsed : Except (List Char) (List Outcome)) (j : Job)
    (files : List (List Char)) (now : Nat) : Job × List (List Char) :=
  let run := runWorker parsed
  match run.final with
  | .completed =>
    ({ j with
        state := .completed,
        progress := lastProgress run.events j.progress,
        result := some run.res,
        finishedAt := some now },
     files.erase j.filePath)
  | .failedWith _ =>
    ({ j with
        state := .failed,
        progress := lastProgress run.events j.progress,
        finishedAt := some now },
     files)

/-- The fixed required header set of the spreadsheet parser. -/
def requiredColumns : List (List Char) :=
  ["ProductID".data, "ProductName".data, "Price".data, "Quantity".data]

/-- The required columns absent from the header row. -/
def missingColumns (headers : List (List Char)) : List (List Char) :=
  requiredColumns.filter (fun col => !(headers.contains col))

/-- One worksheet row turned into a record: header names matched
positionally with the (already text-flattened) cell values. -/
def rowToRecord (headers : List (List Char)) (row : List JsValue) : Rec :=
  headers.zip row

/-- The function `parseExcel`: validate the header row against `requiredColumns`; if
any is missing, throw `Missing required columns: ...` naming exactly the
missing ones, before any data row is visited; otherwise map the remaining
rows, in order, to records. -/
def parseExcel (headers : List (List Char)) (rows : List (List JsValue)) :
    Except (List Char) (List Rec) :=
  let missing := missingColumns headers
  if missing.isEmpty then .ok (rows.map (rowToRecord headers))
  else .error ("Missing required columns: ".data ++ List.intercalate ", ".data missing)

/-- The multi-value field names of the Excel worker's `processRecord`. -/
def multiValueFieldsExcel : List (List Char) :=
  ["Tags".data, "Categories".data]

/-- The function `processRecord` of the Excel worker (effect on the record): each
designated multi-value field with a truthy value is replaced, in place, by
its normalized token array. -/
def processRecordExcel (r : Rec) : Rec :=
  r.map (fun kv =>
    if multiValueFieldsExcel.contains kv.1 && truthy kv.2
    then (kv.1, JsValue.vArr ((ExcelWorker.parseMultiValueField kv.2).map JsScalar.sStr))
    else kv)

/-- In the Excel worker the Record Processor body cannot throw, so every
parsed record yields a success outcome carrying the processed record. -/
def excelOutcomes (recs : List Rec) : List Outcome :=
  recs.map (fun r => Outcome.success (processRecordExcel r))

/-- The processor `excelQueue.process` as a function of the parsed worksheet: parse,
then run the shared record loop. -/
def excelJobRun (headers : List (List Char)) (rows : List (List JsValue)) :
    WorkerRun :=
  runWorker ((parseExcel headers rows).map excelOutcomes)

/-- The two queues a file can be routed to. -/
inductive FileType where
  | csv | excel
deriving DecidableEq

/-- Node `path.extname` for a plain filename: the suffix from the last dot,
empty when there is no dot or when the only dot starts the name. -/
def extname (s : List Char) : List Char :=
  let pre := s.reverse.takeWhile (fun c => c ≠ '.')
  if pre.length = s.length then []
  else if pre.length + 1 = s.length then []
  else '.' :: pre.reverse

/-- The lowercased extension used by classification and the file filter
(`path.extname(filename).toLowerCase()`). -/
def lowerExt (filename : List Char) : List Char :=
  (extname filename).map Char.toLower

/-- The function `getQueueForFile`: `.csv` routes to the csv queue, `.xlsx`/`.xls` to
the excel queue, anything else throws `Unsupported file type`. -/
def getQueueForFile (filename : List Char) : Except (List Char) FileType :=
  let ext := lowerExt filename
  if ext = ".csv".data then .ok .csv
  else if ext = ".xlsx".data then .ok .excel
  else if ext = ".xls".data then .ok .excel
  else .error "Unsupported file type".data

/-- Whether `hay` starts with `needle`. -/
def listStartsWith (needle hay : List Char) : Bool :=
  match needle, hay with
  | [], _ => true
  | _ :: _, [] => false
  | a :: as, b :: bs => a == b && listStartsWith as bs

/-- Whether `needle` occurs as a contiguous substring of `hay`
(JavaScript `String.prototype.includes`, the effect of testing a
one-literal regex). -/
def containsSub (needle hay : List Char) : Bool :=
  match hay with
  | [] => needle.isEmpty
  | _ :: t => listStartsWith needle hay || containsSub needle t

instance {ε α : Type} [DecidableEq ε] [DecidableEq α] :
    DecidableEq (Except ε α) := fun x y =>
  match x, y with
  | .ok a, .ok b =>
    if h : a = b then isTrue (by rw [h])
    else isFalse (by intro hh; cases hh; exact h rfl)
  | .error a, .error b =>
    if h : a = b then isTrue (by rw [h])
    else isFalse (by intro hh; cases hh; exact h rfl)
  | .ok _, .error _ => isFalse (by intro hh; cases hh)
  | .error _, .ok _ => isFalse (by intro hh; cases hh)

/-- The multer `fileFilter`: the regex `/csv|xlsx|xls/` tested against the
lowercased extension (a substring test), and a mimetype allow-list. -/
def fileFilterAccepts (filename mimetype : List Char) : Bool :=
  ((containsSub "csv".data (lowerExt filename)
    || containsSub "xlsx".data (lowerExt filename)
    || containsSub "xls".data (lowerExt filename))
   && (containsSub "csv".data mimetype
       || containsSub "spreadsheetml".data mimetype
       || containsSub "excel".data mimetype))

/-- HTTP status of `POST /upload` for a given file: a filter rejection is
a generic error handled by the error middleware (500); past the filter,
the route's catch block maps any thrown error — including
`Unsupported file type` — to 500, and a queued job answers 200. -/
def uploadResponseStatus (filename mimetype : List Char) : Nat :=
  if !fileFilterAccepts filename mimetype then 500
  else
    match getQueueForFile filename with
    | .ok _ => 200
    | .error _ => 500

/-- The page of the `GET /jobs` response. -/
structure JobsPage (α : Type) where
  jobs : List α
  page : Nat
  pageSize : Nat
  totalJobs : Nat
  totalPages : Nat

/-- JavaScript `Math.ceil(n / s)` on natural inputs with `s > 0`. -/
def jsCeilDiv (n s : Nat) : Nat := (n + s - 1) / s

/-- The pagination of `GET /jobs`: slice
`[(page-1)*pageSize, page*pageSize)` of the state's job list and report
`totalPages = ceil(totalJobs / pageSize)`. -/
def listJobsPage {α : Type} (jobs : List α) (page pageSize : Nat) : JobsPage α :=
  let start := (page - 1) * pageSize
  { jobs := (jobs.drop start).take pageSize,
    page := page,
    pageSize := pageSize,
    totalJobs := jobs.length,
    totalPages := jsCeilDiv jobs.length pageSize }

/-- Whether an outcome is a Record Processor success. -/
def isSucc : Outcome → Bool
  | .success _ => true
  | .failure => false

/-- Whether an outcome is a Record Processor failure. -/
def isFail : Outcome → Bool
  | .success _ => false
  | .failure => true

/-- The number of failing records of a run. -/
def countFailures (os : List Outcome) : Nat := os.countP isFail

lemma countP_succ_add_fail (os : List Outcome) :
    os.countP isSucc + os.countP isFail = os.length := by
  induction os with
  | nil => simp
  | cons o os ih =>
    cases o <;> simp [List.countP_cons, isSucc, isFail] <;> omega

lemma runRecords_counts (t : Nat) (os : List Outcome) : ∀ res : Results,
    (runRecords t res os).1.processed = res.processed + os.countP isSucc
    ∧ (runRecords t res os).1.failed = res.failed + os.countP isFail
    ∧ (runRecords t res os).1.total = res.total := by
  induction os with
  | nil => intro res; simp [runRecords]
  | cons o os ih =>
    intro res
    obtain ⟨h1, h2, h3⟩ := ih (recordStep res o)
    simp only [runRecords]
    rw [h1, h2, h3]
    cases o <;>
      simp [recordStep, isSucc, isFail, List.countP_cons] <;> omega

lemma runRecords_events_mem (t : Nat) (os : List Outcome) : ∀ res ev,
    ev ∈ (runRecords t res os).2 →
    (∃ p, ev = Ev.progressEv p) ∨ ev = Ev.errorLog := by
  induction os with
  | nil => intro res ev h; simp [runRecords] at h
  | cons o os ih =>
    intro res ev h
    simp only [runRecords, List.mem_append] at h
    rcases h with h | h
    · cases o with
      | success d =>
        simp only [eventsFor, List.mem_cons, List.not_mem_nil, or_false] at h
        exact Or.inl ⟨_, h⟩
      | failure =>
        simp only [eventsFor, List.mem_cons, List.not_mem_nil, or_false] at h
        rcases h with h | h
        · exact Or.inr h
        · exact Or.inl ⟨_, h⟩
    · exact ih (recordStep res o) ev h

lemma runRecords_errorLog_count (t : Nat) (os : List Outcome) : ∀ res : Results,
    (runRecords t res os).2.count Ev.errorLog = os.countP isFail := by
  induction os with
  | nil => intro res; simp [runRecords]
  | cons o os ih =>
    intro res
    simp only [runRecords, List.count_append]
    rw [ih (recordStep res o)]
    cases o <;> simp [eventsFor, List.count_cons, List.countP_cons, isFail]
    omega

/-- Claim C1: for every job that passes the parse stage, the worker loop
increments exactly one of the two counters per record, so at the terminal
transition `processed + failed = total` and `total` is the number of
parsed records; such a job always reaches `completed`. -/
theorem claim1_counts_invariant (os : List Outcome) :
    (runWorker (.ok os)).res.processed + (runWorker (.ok os)).res.failed
        = (runWorker (.ok os)).res.total
    ∧ (runWorker (.ok os)).res.total = os.length
    ∧ (runWorker (.ok os)).final = Final.completed := by
  obtain ⟨h1, h2, h3⟩ :=
    runRecords_counts os.length os { initResults with total := os.length }
  simp only [runWorker]
  refine ⟨?_, ?_, trivial⟩
  · rw [h1, h2, h3]
    simp [initResults, countP_succ_add_fail]
  · rw [h3]

/-- Claim C3: a Record Processor failure on a record increments `failed`, is
logged (one error-log event per failing record) and is not propagated:
no run over parsed records emits a job-failure event, every such run
terminates in `completed` (even when every record failed), and the
counters tally successes and failures exactly. -/
theorem claim3_per_record_failure_isolation (os : List Outcome) :
    (runWorker (.ok os)).final = Final.completed
    ∧ (runWorker (.ok os)).res.failed = countFailures os
    ∧ (runWorker (.ok os)).res.processed = os.countP isSucc
    ∧ Ev.failEv ∉ (runWorker (.ok os)).events
    ∧ (runWorker (.ok os)).events.count Ev.errorLog = countFailures os := by
  obtain ⟨h1, h2, h3⟩ :=
    runRecords_counts os.length os { initResults with total := os.length }
  refine ⟨rfl, ?_, ?_, ?_, ?_⟩
  · simp only [runWorker]; rw [h2]; simp [initResults, countFailures]
  · simp only [runWorker]; rw [h1]; simp [initResults]
  · simp only [runWorker, List.mem_append]
    intro h
    rcases h with h | h
    · rcases runRecords_events_mem os.length os _ _ h with ⟨p, hp⟩ | hp <;>
        simp at hp
    · simp at h
  · simp only [runWorker]
    rw [List.count_append, runRecords_errorLog_count]
    simp [countFailures, List.count_cons]

lemma progressOf_append (a b : List Ev) :
    progressOf (a ++ b) = progressOf a ++ progressOf b := by
  simp [progressOf, List.filterMap_append]

lemma runRecords_progress (t : Nat) (os : List Outcome) : ∀ res : Results,
    progressOf (runRecords t res os).2 =
      (List.range' (res.processed + res.failed + 1) os.length).map
        (fun k => k * 100 / t) := by
  induction os with
  | nil => intro res; simp [runRecords, progressOf]
  | cons o os ih =>
    intro res
    have hc : (recordStep res o).processed + (recordStep res o).failed
        = res.processed + res.failed + 1 := by
      cases o <;> simp [recordStep]
      all_goals omega
    simp only [runRecords, progressOf_append]
    rw [ih (recordStep res o), hc]
    cases o <;> simp [eventsFor, progressOf, List.range']

lemma range'_map_getLast (n : Nat) (f : Nat → Nat) (h : n ≠ 0) :
    ((List.range' 1 n).map f).getLast? = some (f n) := by
  obtain ⟨m, rfl⟩ := Nat.exists_eq_succ_of_ne_zero h
  rw [List.range'_concat, List.map_append]
  simp [Nat.add_comm]

lemma runWorker_progress (os : List Outcome) :
    progressOf (runWorker (.ok os)).events =
      (List.range' 1 os.length).map (fun k => k * 100 / os.length) := by
  simp only [runWorker, progressOf_append]
  rw [runRecords_progress]
  simp [progressOf, initResults]

/-- Claim C2 (amended): for every job that passes the parse stage with at least
one parsed record, the progress values emitted after each record are
exactly `⌊(processed + failed) / total * 100⌋` in sequence, are
non-decreasing, end at 100 at the terminal transition, and no emission
before the last record reaches 100; a job whose parsed record sequence is
empty completes without any progress emission. -/
theorem claim2_progress_amended (os : List Outcome) (h : os ≠ []) :
    progressOf (runWorker (.ok os)).events
        = (List.range' 1 os.length).map (fun k => k * 100 / os.length)
    ∧ (runWorker (.ok os)).final = Final.completed
    ∧ List.Pairwise (· ≤ ·) (progressOf (runWorker (.ok os)).events)
    ∧ (progressOf (runWorker (.ok os)).events).getLast? = some 100
    ∧ (∀ k, 0 < k → k < os.length → k * 100 / os.length < 100) := by
  have hn : os.length ≠ 0 := by
    intro h0
    exact h (List.length_eq_zero.mp h0)
  refine ⟨runWorker_progress os, rfl, ?_, ?_, ?_⟩
  · rw [runWorker_progress os]
    refine List.Pairwise.map _ ?_ (List.pairwise_lt_range' 1 os.length)
    intro a b hab
    exact Nat.div_le_div_right (Nat.mul_le_mul_right 100 (le_of_lt hab))
  · rw [runWorker_progress os, range'_map_getLast _ _ hn]
    rw [Nat.mul_div_cancel_left 100 (Nat.pos_of_ne_zero hn)]
  · intro k hk hkn
    apply Nat.div_lt_of_lt_mul
    have hmul : k * 100 < os.length * 100 :=
      (Nat.mul_lt_mul_right (by omega)).mpr hkn
    omega

/-- Witness for C2 (amended) at the one-record run. -/
theorem claim2_progress_amended_witness :
    progressOf (runWorker (.ok [Outcome.failure])).events
        = (List.range' 1 1).map (fun k => k * 100 / 1)
    ∧ (runWorker (.ok [Outcome.failure])).final = Final.completed
    ∧ List.Pairwise (· ≤ ·) (progressOf (runWorker (.ok [Outcome.failure])).events)
    ∧ (progressOf (runWorker (.ok [Outcome.failure])).events).getLast? = some 100
    ∧ (∀ k, 0 < k → k < 1 → k * 100 / 1 < 100) :=
  claim2_progress_amended [Outcome.failure] (by decide)

/-- Claim C2 counterexample: a job whose parsed record sequence is empty
(`total == 0`) completes with progress still 0, never 100 — the loop body
that emits progress never runs. -/
theorem claim2_counterexample :
    (applyWorker (.ok []) ⟨1, "uploads/f".data, "f.csv".data, JState.active,
        0, none, 0, some 0, none⟩ ["uploads/f".data] 7).1.state = JState.completed
    ∧ (applyWorker (.ok []) ⟨1, "uploads/f".data, "f.csv".data, JState.active,
        0, none, 0, some 0, none⟩ ["uploads/f".data] 7).1.progress = 0
    ∧ (0 : Nat) ≠ 100 := by decide

/-- Claim C8: the worker deletes the source file exactly on the success path of
finalization — after the record loop (whatever the per-record outcomes)
the deletion event precedes the terminal `completed` transition and the
file is removed from the store; when the parse stage throws, the file
store is untouched and every job field other than state, result and
timestamps (and the progress the run never wrote) is unchanged. -/
theorem claim8_file_deletion_frame (os : List Outcome) (e : List Char)
    (j : Job) (files : List (List Char)) (now : Nat) :
    ((applyWorker (.ok os) j files now).2 = files.erase j.filePath
      ∧ (applyWorker (.ok os) j files now).1.state = JState.completed
      ∧ (∃ pre, (runWorker (.ok os)).events = pre ++ [Ev.fileDelete, Ev.completeEv]
          ∧ Ev.fileDelete ∉ pre ∧ Ev.completeEv ∉ pre))
    ∧ ((applyWorker (.error e) j files now).2 = files
      ∧ (applyWorker (.error e) j files now).1.state = JState.failed
      ∧ Ev.fileDelete ∉ (runWorker (.error e)).events
      ∧ (applyWorker (.error e) j files now).1.id = j.id
      ∧ (applyWorker (.error e) j files now).1.filePath = j.filePath
      ∧ (applyWorker (.error e) j files now).1.originalName = j.originalName
      ∧ (applyWorker (.error e) j files now).1.createdAt = j.createdAt
      ∧ (applyWorker (.error e) j files now).1.startedAt = j.startedAt
      ∧ (applyWorker (.error e) j files now).1.result = j.result
      ∧ (applyWorker (.error e) j files now).1.progress = j.progress) := by
  refine ⟨⟨rfl, rfl, ?_⟩, rfl, rfl, ?_, rfl, rfl, rfl, rfl, rfl, rfl, ?_⟩
  · refine ⟨(runRecords os.length { initResults with total := os.length } os).2,
      rfl, ?_, ?_⟩
    · intro hmem
      rcases runRecords_events_mem os.length os _ _ hmem with ⟨p, hp⟩ | hp <;>
        simp at hp
    · intro hmem
      rcases runRecords_events_mem os.length os _ _ hmem with ⟨p, hp⟩ | hp <;>
        simp at hp
  · simp [runWorker]
  · simp [applyWorker, runWorker, lastProgress, progressOf]

/-- Claim C4: a spreadsheet whose header row lacks a required column makes
`parseExcel` throw an error naming exactly the missing columns before any
data row is visited (the run is independent of the rows), and the job
fails with all counters at 0 and no per-record breakdown. -/
theorem claim4_missing_columns (headers : List (List Char))
    (rows rows' : List (List JsValue))
    (h : ∃ c, c ∈ requiredColumns ∧ headers.contains c = false) :
    excelJobRun headers rows =
      ⟨initResults, [Ev.failEv],
        .failedWith ("Missing required columns: ".data
          ++ List.intercalate ", ".data (missingColumns headers))⟩
    ∧ initResults.processed = 0 ∧ initResults.failed = 0
    ∧ initResults.total = 0 ∧ initResults.records = []
    ∧ excelJobRun headers rows = excelJobRun headers rows' := by
  obtain ⟨c, hc, hnc⟩ := h
  have hmem : c ∈ missingColumns headers := by
    simp only [missingColumns, List.mem_filter]
    exact ⟨hc, by rw [hnc]; rfl⟩
  have hne : (missingColumns headers).isEmpty = false := by
    cases hm : missingColumns headers with
    | nil => rw [hm] at hmem; simp at hmem
    | cons a l => simp
  have hparse : ∀ rs : List (List JsValue),
      parseExcel headers rs = .error ("Missing required columns: ".data
        ++ List.intercalate ", ".data (missingColumns headers)) := by
    intro rs
    simp [parseExcel, hne]
  have hrun : ∀ rs : List (List JsValue),
      excelJobRun headers rs =
        ⟨initResults, [Ev.failEv],
          .failedWith ("Missing required columns: ".data
            ++ List.intercalate ", ".data (missingColumns headers))⟩ := by
    intro rs
    simp [excelJobRun, hparse rs, Except.map, runWorker]
  exact ⟨hrun rows, rfl, rfl, rfl, rfl, by rw [hrun rows, hrun rows']⟩

/-- Witness for C4: a header row missing `Price`. -/
theorem claim4_missing_columns_witness :
    (excelJobRun ["ProductID".data, "ProductName".data, "Quantity".data] []).final
        = Final.failedWith "Missing required columns: Price".data
    ∧ (excelJobRun ["ProductID".data, "ProductName".data, "Quantity".data] []).res.processed
        = 0 := by
  have h := claim4_missing_columns
    ["ProductID".data, "ProductName".data, "Quantity".data]
    [] [[JsValue.vNum 1]] ⟨"Price".data, by decide, by decide⟩
  rw [h.1]
  exact ⟨by decide, rfl⟩

/-- Claim C5: concrete behaviour of multi-value normalization, identical in both
workers on these inputs: `"a,b,c"` splits on commas, a quoted `"x|y"` is
unwrapped and split on the pipe, the empty string and an absent value give
`[]`, and tokens are trimmed with empty tokens dropped. -/
theorem claim5_multivalue_examples :
    CsvWorker.parseMultiValueField (.vStr "a,b,c".data)
        = ["a".data, "b".data, "c".data]
    ∧ ExcelWorker.parseMultiValueField (.vStr "a,b,c".data)
        = ["a".data, "b".data, "c".data]
    ∧ CsvWorker.parseMultiValueField (.vStr "\"x|y\"".data)
        = ["x".data, "y".data]
    ∧ ExcelWorker.parseMultiValueField (.vStr "\"x|y\"".data)
        = ["x".data, "y".data]
    ∧ CsvWorker.parseMultiValueField (.vStr "".data) = []
    ∧ ExcelWorker.parseMultiValueField (.vStr "".data) = []
    ∧ CsvWorker.parseMultiValueField JsValue.vNull = []
    ∧ ExcelWorker.parseMultiValueField JsValue.vNull = []
    ∧ CsvWorker.parseMultiValueField (.vStr " a , ,b ".data)
        = ["a".data, "b".data]
    ∧ ExcelWorker.parseMultiValueField (.vStr " a , ,b ".data)
        = ["a".data, "b".data] := by decide

/-- Whether a value is a JavaScript string. -/
def isStringV : JsValue → Bool
  | .vStr _ => true
  | _ => false

/-- Claim C6 counterexample: the CSV worker's normalizer maps the number 5 to
`[]`, not to `["5"]` — only the Excel worker's variant stringifies
non-string scalars. -/
theorem claim6_counterexample :
    CsvWorker.parseMultiValueField (JsValue.vNum 5) = []
    ∧ CsvWorker.parseMultiValueField (JsValue.vNum 5) ≠ ["5".data]
    ∧ ExcelWorker.parseMultiValueField (JsValue.vNum 5) = ["5".data] := by decide

/-- Claim C6 (amended): only the Excel variant stringifies a non-string,
non-sequence value (the number 5 normalizes to `["5"]` there); the CSV
variant returns `[]` for every non-string value. -/
theorem claim6_amended (v : JsValue) (h : isStringV v = false) :
    CsvWorker.parseMultiValueField v = []
    ∧ ExcelWorker.parseMultiValueField (JsValue.vNum 5) = ["5".data] := by
  refine ⟨?_, by decide⟩
  cases v with
  | vStr s => simp [isStringV] at h
  | vNum n =>
    by_cases hn : n = 0
    · subst hn; decide
    · simp [CsvWorker.parseMultiValueField, truthy, hn]
  | vArr es => rfl
  | vNull => rfl

/-- Witness for C6 (amended) at the number 5. -/
theorem claim6_amended_witness :
    CsvWorker.parseMultiValueField (JsValue.vNum 5) = []
    ∧ ExcelWorker.parseMultiValueField (JsValue.vNum 5) = ["5".data] :=
  claim6_amended (JsValue.vNum 5) (by decide)

/-- Claim C10: on every string input the two separately implemented
normalizers agree — the implementations only diverge on non-string
values. -/
theorem claim10_normalizer_equivalence (s : List Char) :
    CsvWorker.parseMultiValueField (JsValue.vStr s)
      = ExcelWorker.parseMultiValueField (JsValue.vStr s) := by
  cases s with
  | nil => rfl
  | cons c cs => rfl

/-- Claim C7 (amended): classification routes `.csv` to the csv queue and
`.xlsx`/`.xls` to the excel queue; any other extension is rejected with
`Unsupported file type`, and the upload endpoint then answers HTTP 500
(the thrown classification error lands in the route's generic catch, and
a file-filter rejection lands in the generic error middleware), not
400. -/
theorem claim7_routing_amended (name mt : List Char) :
    (lowerExt name = ".csv".data → getQueueForFile name = .ok FileType.csv)
    ∧ ((lowerExt name = ".xlsx".data ∨ lowerExt name = ".xls".data) →
        getQueueForFile name = .ok FileType.excel)
    ∧ ((lowerExt name ≠ ".csv".data ∧ lowerExt name ≠ ".xlsx".data
          ∧ lowerExt name ≠ ".xls".data) →
        getQueueForFile name = .error "Unsupported file type".data
        ∧ uploadResponseStatus name mt = 500) := by
  refine ⟨?_, ?_, ?_⟩
  · intro h
    simp only [getQueueForFile]
    rw [h]
    decide
  · intro h
    rcases h with h | h <;> simp only [getQueueForFile] <;> rw [h] <;> decide
  · rintro ⟨h1, h2, h3⟩
    have hq : getQueueForFile name = .error "Unsupported file type".data := by
      simp only [getQueueForFile]
      rw [if_neg h1, if_neg h2, if_neg h3]
    refine ⟨hq, ?_⟩
    simp only [uploadResponseStatus]
    cases hf : fileFilterAccepts name mt
    · rfl
    · rw [hq]
      rfl

/-- Witness for C7 (amended): one file per routing branch, and the
rejected extension `.mycsv` (which passes the substring-based file filter
and is refused by classification, yielding 500). -/
theorem claim7_routing_amended_witness :
    getQueueForFile "products.csv".data = .ok FileType.csv
    ∧ getQueueForFile "report.XLSX".data = .ok FileType.excel
    ∧ uploadResponseStatus "data.mycsv".data "text/csv".data = 500 :=
  ⟨(claim7_routing_amended "products.csv".data "text/csv".data).1 (by decide),
   (claim7_routing_amended "report.XLSX".data "mime".data).2.1 (Or.inl (by decide)),
   ((claim7_routing_amended "data.mycsv".data "text/csv".data).2.2
      ⟨by decide, by decide, by decide⟩).2⟩

/-- Claim C7 counterexample: `data.mycsv` passes the multer file filter, is
rejected by classification, and the upload endpoint answers 500 — not the
400 the claim states. -/
theorem claim7_counterexample :
    getQueueForFile "data.mycsv".data = .error "Unsupported file type".data
    ∧ fileFilterAccepts "data.mycsv".data "text/csv".data = true
    ∧ uploadResponseStatus "data.mycsv".data "text/csv".data = 500
    ∧ (500 : Nat) ≠ 400 := by decide

/-- Claim C9: the endpoint `GET /jobs` returns exactly the 0-indexed positions
`[(page-1)*pageSize, page*pageSize)` of the state's job list, and
`totalPages` is the ceiling of `totalJobs / pageSize` (characterised by
`totalJobs ≤ totalPages * pageSize < totalJobs + pageSize`). -/
theorem claim9_pagination (α : Type) (jobs : List α) (page pageSize : Nat)
    (_hp : 1 ≤ page) (hs : 1 ≤ pageSize) :
    (∀ i, i < pageSize →
      ((listJobsPage jobs page pageSize).jobs)[i]?
        = jobs[(page - 1) * pageSize + i]?)
    ∧ (listJobsPage jobs page pageSize).jobs.length
        = min pageSize (jobs.length - (page - 1) * pageSize)
    ∧ jobs.length ≤ (listJobsPage jobs page pageSize).totalPages * pageSize
    ∧ (listJobsPage jobs page pageSize).totalPages * pageSize
        < jobs.length + pageSize := by
  have hdm := Nat.div_add_mod (jobs.length + pageSize - 1) pageSize
  have hmod : (jobs.length + pageSize - 1) % pageSize < pageSize :=
    Nat.mod_lt _ (by omega)
  have hcomm : (jobs.length + pageSize - 1) / pageSize * pageSize
      = pageSize * ((jobs.length + pageSize - 1) / pageSize) :=
    Nat.mul_comm _ _
  refine ⟨?_, ?_, ?_, ?_⟩
  · intro i hi
    simp only [listJobsPage]
    rw [List.getElem?_take_of_lt hi, List.getElem?_drop]
  · simp [listJobsPage, List.length_take, List.length_drop]
  · simp only [listJobsPage, jsCeilDiv]
    omega
  · simp only [listJobsPage, jsCeilDiv]
    omega

/-- Witness for C9: 25 completed jobs, page 2, page size 10 — the page is
positions 10–19 and `totalPages = 3`. -/
theorem claim9_pagination_witness :
    (listJobsPage (List.range 25) 2 10).jobs
        = [10, 11, 12, 13, 14, 15, 16, 17, 18, 19]
    ∧ (listJobsPage (List.range 25) 2 10).totalPages = 3
    ∧ (List.range 25).length
        ≤ (listJobsPage (List.range 25) 2 10).totalPages * 10 :=
  ⟨by decide, by decide,
   (claim9_pagination Nat (List.range 25) 2 10 (by decide) (by decide)).2.2.1⟩
